import Mathlib

/-!
Verification of the browser-side upload flow controller in
`src/static/js/main.js` (MOOC_Resume_Feature).

The JavaScript source is shallowly embedded: each function of the source is
translated into an executable Lean definition over explicit data, and the
spec's claims are proved (or refuted) about those definitions.

Conventions of the embedding:
* JS strings are Lean `String`s; single-character global replacement
  (`s.replace(/'/g, '"')`, `domain.replace('_', ' ')`) is modelled on the
  underlying character list, matching the JS semantics (a regex with the `g`
  flag replaces every occurrence; a plain string pattern replaces only the
  first occurrence).
* A possibly-absent field is an `Option`; JS truthiness of a string is
  "nonempty", of an array it is always true, of a number `≠ 0`.
* File sizes are natural numbers of bytes.
* The course rating is a rational number (the source only floors it and
  compares its fractional remainder with 0.5, both exact operations).
-/

/-- A selected file as the validator sees it: `file.size` in bytes and
`file.type` (the media type string). The name is irrelevant to validation. -/
structure FileInfo where
  size : Nat
  type : String
deriving DecidableEq, Repr

/-- The `allowedTypes` list from the submit handler (main.js line 40). -/
def allowedTypes : List String :=
  ["application/pdf",
   "application/vnd.openxmlformats-officedocument.wordprocessingml.document",
   "application/msword"]

/-- The validation prefix of the submit handler (main.js lines 26-44):
`none` means validation accepted and submission proceeds; `some msg` means
the handler called `showError msg` and returned. The checks run in source
order: file-selected, then size, then type. -/
def validateFile (file : Option FileInfo) : Option String :=
  match file with
  | none => some "Please select a file to upload"
  | some f =>
    if f.size > 16 * 1024 * 1024 then
      some "File size exceeds 16MB limit"
    else if ¬ (allowedTypes.contains f.type) then
      some "Invalid file type. Please upload a PDF or DOCX file"
    else
      none

/-- The page's view state: visibility of the four containers plus the two
text nodes the state operations write (`fileName`, `errorMessage`).
`display block` is modelled as `true`, `display none` as `false`. -/
structure UIState where
  uploadVisible : Bool
  loadingVisible : Bool
  errorVisible : Bool
  resultsVisible : Bool
  fileNameText : String
  errorMessageText : String
deriving DecidableEq, Repr

/-- Model of `showLoading()` (main.js lines 76-81). -/
def showLoading (s : UIState) : UIState :=
  { s with uploadVisible := false, errorVisible := false,
           resultsVisible := false, loadingVisible := true }

/-- Model of `showError(message)` (main.js lines 84-90). -/
def showError (message : String) (s : UIState) : UIState :=
  { s with uploadVisible := false, loadingVisible := false,
           resultsVisible := false, errorVisible := true,
           errorMessageText := message }

/-- The view-state effect of `displayResults(data)` (main.js lines 93-110):
hides upload, loading and error, then shows the results section. The
rendering of the payload into the results section is modelled separately
(see `renderDomains`, `renderSkillTags`, `starsString`, `sourceLinkTarget`,
`formatNumber`); scrolling is presentation-only. -/
def displayResults (s : UIState) : UIState :=
  { s with uploadVisible := false, loadingVisible := false,
           errorVisible := false, resultsVisible := true }

/-- Model of `resetForm()` (main.js lines 257-267): clears the form, resets the
file-name display to the placeholder, returns to the Upload state. -/
def resetForm (s : UIState) : UIState :=
  { s with fileNameText := "Choose File",
           uploadVisible := true, loadingVisible := false,
           errorVisible := false, resultsVisible := false }

/-- How many of the four state containers are visible. -/
def visibleCount (s : UIState) : Nat :=
  (if s.uploadVisible then 1 else 0) + (if s.loadingVisible then 1 else 0) +
  (if s.errorVisible then 1 else 0) + (if s.resultsVisible then 1 else 0)

/-- The server payload as the submit handler reads it: `data.success`
(truthiness of the success flag) and `data.error` (absent, or a string). -/
structure UploadPayload where
  success : Bool
  error : Option String
deriving DecidableEq, Repr

/-- What the one `fetch` round-trip produced, as observed inside the `try`
block (main.js lines 53-72): the fetch itself threw, or `response.json()`
threw (body not parseable as JSON), or a parsed payload together with
`response.ok` (HTTP status in the 200-299 range). -/
inductive FetchResult where
  | fetchThrew
  | jsonParseThrew (ok : Bool)
  | parsed (ok : Bool) (data : UploadPayload)
deriving DecidableEq, Repr

/-- Where the handler routes afterwards: render the results, or show an
error message. -/
inductive SubmitOutcome where
  | renderResults
  | errorShown (message : String)
deriving DecidableEq, Repr

/-- JS `a || b` on an optional string: absent, `undefined` and the empty
string are all falsy, so the fallback is used for them. -/
def jsOrString (a : Option String) (b : String) : String :=
  match a with
  | none => b
  | some s => if s = "" then b else s

/-- The try/catch tail of the submit handler (main.js lines 53-72):
any throw inside the `try` (fetch failure or JSON parse failure) lands in
the `catch` with the fixed transport message; a parsed response renders
results iff `response.ok && data.success`, and otherwise shows
`data.error || 'An error occurred while processing your resume'`. -/
def submitOutcome (r : FetchResult) : SubmitOutcome :=
  match r with
  | .fetchThrew => .errorShown "Failed to connect to server. Please try again."
  | .jsonParseThrew _ => .errorShown "Failed to connect to server. Please try again."
  | .parsed ok data =>
    if ok ∧ data.success then
      .renderResults
    else
      .errorShown (jsOrString data.error "An error occurred while processing your resume")

/-- JS `String.prototype.toUpperCase` restricted to the simple-case-mapping
characters that appear in domain names (modelled character by character). -/
def jsToUpperCase (s : String) : String :=
  ⟨s.data.map Char.toUpper⟩

/-- JS `s.replace(pat, rep)` with a plain one-character string pattern:
only the FIRST occurrence is replaced (no `g` flag on a string pattern). -/
def jsReplaceFirstChar (pat rep : Char) : List Char → List Char
  | [] => []
  | c :: cs => if c = pat then rep :: cs else c :: jsReplaceFirstChar pat rep cs

/-- The text of one domain tag (main.js line 127):
`domain.replace('_', ' ').toUpperCase()`. -/
def domainTagText (domain : String) : String :=
  jsToUpperCase ⟨jsReplaceFirstChar '_' ' ' domain.data⟩

/-- The sequence of domain-tag texts rendered by `displayAnalysis`
(main.js lines 120-132): one tag per domain when the list is present and
non-empty, otherwise the single placeholder tag `General`. -/
def renderDomains (domains : Option (List String)) : List String :=
  match domains with
  | some l => if l.length > 0 then l.map domainTagText else ["General"]
  | none => ["General"]

/-- The sequence of skill-tag texts rendered by `displayAnalysis`
(main.js lines 135-155): the first 10 skills verbatim, then a single
`+N more` tag when more than 10 exist; the placeholder when the list is
absent or empty. -/
def renderSkillTags (skills : Option (List String)) : List String :=
  match skills with
  | some l =>
    if l.length > 0 then
      l.take 10 ++
        (if l.length > 10 then ["+" ++ toString (l.length - 10) ++ " more"] else [])
    else
      ["No specific skills identified"]
  | none => ["No specific skills identified"]

/-- The star character `⭐` (U+2B50) used by `createCourseCard`. -/
def starChar : Char := Char.ofNat 0x2B50

/-- JS `Math.floor` on an (exact) rating value. -/
def jsMathFloor (r : ℚ) : ℤ := ⌊r⌋

/-- JS `x % 1`: the truncated remainder `x - trunc(x)` (for `x ≥ 0` this is
the fractional part). -/
def jsModOne (r : ℚ) : ℚ :=
  r - (if 0 ≤ r then ⌊r⌋ else ⌈r⌉)

/-- The star string of a course card (main.js line 185):
`'⭐'.repeat(Math.floor(rating)) + (rating % 1 >= 0.5 ? '⭐' : '')`. -/
def starsString (rating : ℚ) : String :=
  ⟨List.replicate (jsMathFloor rating).toNat starChar ++
    (if jsModOne rating ≥ 1/2 then [starChar] else [])⟩

/-- Comma insertion at the non-first positions of an all-digit string, as
performed by `formatNumber`'s regex (main.js line 253):
`str.replace(/\B(?=(\d{3})+(?!\d))/g, ",")`.
On a string consisting solely of digits, `\B` holds exactly at the interior
positions (every position except the very start and the very end is between
two digits; the end positions never match the lookahead anyway), and the
lookahead `(\d{3})+(?!\d)` holds at a position exactly when the number of
characters remaining from it to the end of the string is a positive
multiple of 3 — the group must repeat whole and `(?!\d)` can only succeed
at the end of the digit run.  So a comma is inserted before a character
exactly when it is not the first character and the count of characters from
it (inclusive) to the end is divisible by 3.  `insertCommasTail` handles the
non-first characters; `insertCommas` skips the boundary position 0. -/
def insertCommasTail : List Char → List Char
  | [] => []
  | c :: cs =>
    (if (cs.length + 1) % 3 = 0 then [','] else []) ++ c :: insertCommasTail cs

/-- See `insertCommasTail`: the full replacement result on a digit string. -/
def insertCommas : List Char → List Char
  | [] => []
  | c :: cs => c :: insertCommasTail cs

/-- Model of `formatNumber(num)` (main.js lines 252-254) on a non-negative integer:
`num.toString()` then the global regex replacement that inserts the
thousands separators. -/
def formatNumber (num : Nat) : String :=
  ⟨insertCommas (Nat.repr num).data⟩

/-- Spec-side digit grouping: split a digit string into chunks of 3
counting from the RIGHT (the leftmost chunk may be shorter). -/
def chunksFromRight (l : List Char) : List (List Char) :=
  if _h : l.length ≤ 3 then [l]
  else
    chunksFromRight (l.take (l.length - 3)) ++ [l.drop (l.length - 3)]
termination_by l.length
decreasing_by simp only [List.length_take]; omega

/-- Join character groups with a single comma between adjacent groups. -/
def joinWithComma : List (List Char) → List Char
  | [] => []
  | [x] => x
  | x :: xs => x ++ ',' :: joinWithComma xs

/-- Spec-side formatting: the decimal representation with a comma between
each pair of adjacent 3-digit groups counted from the right. -/
def formatNumberSpec (num : Nat) : String :=
  ⟨joinWithComma (chunksFromRight (Nat.repr num).data)⟩

/-- The double-quote character. -/
def quoteChar : Char := Char.ofNat 34

/-- The apostrophe (single-quote) character. -/
def apostropheChar : Char := Char.ofNat 39

/-- The backslash character. -/
def backslashChar : Char := Char.ofNat 92

/-- Model of `sources.replace(/'/g, '"')` (main.js line 193): the `g` flag makes this
replace EVERY apostrophe with a double quote. -/
def replaceApostrophes (s : String) : String :=
  ⟨s.data.map (fun c => if c = apostropheChar then quoteChar else c)⟩

/-- A parsed JSON value, as produced by `JSON.parse`.  Numbers keep their
source lexeme: the claims under verification never consume a numeric value,
so the number-to-double conversion is not modelled. -/
inductive JsValue where
  | nullV
  | boolV (b : Bool)
  | numV (raw : String)
  | strV (s : String)
  | arrV (elems : List JsValue)
  | objV (fields : List (String × JsValue))
deriving Repr

/-- JSON insignificant whitespace: space, tab, line feed, carriage return. -/
def isJsonWs (c : Char) : Bool :=
  c = Char.ofNat 32 ∨ c = Char.ofNat 9 ∨ c = Char.ofNat 10 ∨ c = Char.ofNat 13

/-- Drop leading JSON whitespace. -/
def skipWs : List Char → List Char
  | [] => []
  | c :: cs => if isJsonWs c then skipWs cs else c :: cs

/-- Value of a hexadecimal digit, if the character is one. -/
def hexDigitVal (c : Char) : Option Nat :=
  if c.isDigit then some (c.toNat - 48)
  else if 97 ≤ c.toNat ∧ c.toNat ≤ 102 then some (c.toNat - 87)
  else if 65 ≤ c.toNat ∧ c.toNat ≤ 70 then some (c.toNat - 55)
  else none

/-- The character a single-character JSON string escape denotes, if any. -/
def escapedChar (e : Char) : Option Char :=
  if e = quoteChar then some quoteChar
  else if e = backslashChar then some backslashChar
  else if e = Char.ofNat 47 then some (Char.ofNat 47)
  else if e = 'b' then some (Char.ofNat 8)
  else if e = 'f' then some (Char.ofNat 12)
  else if e = 'n' then some (Char.ofNat 10)
  else if e = 'r' then some (Char.ofNat 13)
  else if e = 't' then some (Char.ofNat 9)
  else none

/-- Parse the body of a JSON string after its opening quote, returning the
decoded characters and the input remaining after the closing quote.  Raw
control characters are rejected, the escapes of the JSON grammar are
decoded (a `\uXXXX` escape is decoded through `Char.ofNat`; Lean `Char`s
are scalar values, so an unpaired surrogate escape — which `JSON.parse`
would keep as a lone UTF-16 unit — maps to the null character instead;
no claim exercises that corner). -/
def parseStringBodyF : Nat → List Char → Option (List Char × List Char)
  | 0, _ => none
  | _ + 1, [] => none
  | fuel + 1, c :: cs =>
    if c = quoteChar then some ([], cs)
    else if c = backslashChar then
      match cs with
      | [] => none
      | e :: cs2 =>
        if e = 'u' then
          match cs2 with
          | h1 :: h2 :: h3 :: h4 :: cs3 =>
            match hexDigitVal h1, hexDigitVal h2, hexDigitVal h3, hexDigitVal h4 with
            | some a, some b, some c3, some d =>
              match parseStringBodyF fuel cs3 with
              | some (content, r) =>
                some (Char.ofNat (a * 4096 + b * 256 + c3 * 16 + d) :: content, r)
              | none => none
            | _, _, _, _ => none
          | _ => none
        else
          match escapedChar e with
          | some ch =>
            match parseStringBodyF fuel cs2 with
            | some (content, r) => some (ch :: content, r)
            | none => none
          | none => none
    else if c.toNat < 32 then none
    else
      match parseStringBodyF fuel cs with
      | some (content, r) => some (c :: content, r)
      | none => none

/-- See `parseStringBodyF`: the fuel `length + 1` cannot run out because
every recursive call first consumes at least one character. -/
def parseStringBody (cs : List Char) : Option (List Char × List Char) :=
  parseStringBodyF (cs.length + 1) cs

/-- Longest leading run of decimal digits. -/
def spanDigits : List Char → List Char × List Char
  | [] => ([], [])
  | c :: cs =>
    if c.isDigit then
      match spanDigits cs with
      | (ds, r) => (c :: ds, r)
    else ([], c :: cs)

/-- Parse the optional fraction part `. digits+` of a JSON number,
returning the consumed characters (empty if absent). -/
def parseFracPart (cs : List Char) : Option (List Char × List Char) :=
  match cs with
  | c :: rest =>
    if c = '.' then
      match rest with
      | d :: _ =>
        if d.isDigit then
          match spanDigits rest with
          | (ds, r) => some (c :: ds, r)
        else none
      | [] => none
    else some ([], cs)
  | [] => some ([], cs)

/-- Parse the optional exponent part `(e|E) (+|-)? digits+` of a JSON
number, returning the consumed characters (empty if absent). -/
def parseExpPart (cs : List Char) : Option (List Char × List Char) :=
  match cs with
  | c :: rest =>
    if c = 'e' ∨ c = 'E' then
      let signAndRest : List Char × List Char :=
        match rest with
        | s :: rest2 => if s = '+' ∨ s = '-' then ([s], rest2) else ([], rest)
        | [] => ([], rest)
      match signAndRest.2 with
      | d :: _ =>
        if d.isDigit then
          match spanDigits signAndRest.2 with
          | (ds, r) => some (c :: signAndRest.1 ++ ds, r)
        else none
      | [] => none
    else some ([], cs)
  | [] => some ([], cs)

/-- Parse a JSON number lexeme `-? int frac? exp?` (int is `0` or a nonzero
digit followed by digits), returning the lexeme and the rest. -/
def parseNumberLex (cs : List Char) : Option (List Char × List Char) :=
  let signAndRest : List Char × List Char :=
    match cs with
    | c :: rest => if c = '-' then ([c], rest) else ([], cs)
    | [] => ([], cs)
  match signAndRest.2 with
  | c :: rest =>
    (if c = '0' then some (signAndRest.1 ++ [c], rest)
     else if c.isDigit then
       match spanDigits rest with
       | (ds, r) => some (signAndRest.1 ++ c :: ds, r)
     else none).bind fun intAndRest =>
      (parseFracPart intAndRest.2).bind fun fracAndRest =>
        (parseExpPart fracAndRest.2).bind fun expAndRest =>
          some (intAndRest.1 ++ fracAndRest.1 ++ expAndRest.1, expAndRest.2)
  | [] => none

mutual

/-- Parse one JSON value (fuelled; the fuel is generous enough that it
never runs out on the input it is given, see `jsonParse`).  Leading
whitespace is skipped; the value and the remaining input are returned. -/
def parseJsonValue : Nat → List Char → Option (JsValue × List Char)
  | 0, _ => none
  | fuel + 1, cs =>
    match skipWs cs with
    | 'n' :: 'u' :: 'l' :: 'l' :: rest => some (.nullV, rest)
    | 't' :: 'r' :: 'u' :: 'e' :: rest => some (.boolV true, rest)
    | 'f' :: 'a' :: 'l' :: 's' :: 'e' :: rest => some (.boolV false, rest)
    | c :: rest =>
      if c = quoteChar then
        match parseStringBody rest with
        | some (content, r) => some (.strV ⟨content⟩, r)
        | none => none
      else if c = '[' then
        match skipWs rest with
        | c2 :: rest2 =>
          if c2 = ']' then some (.arrV [], rest2)
          else
            match parseJsonElems fuel (c2 :: rest2) with
            | some (vs, r) => some (.arrV vs, r)
            | none => none
        | [] => none
      else if c = Char.ofNat 123 then
        match skipWs rest with
        | c2 :: rest2 =>
          if c2 = Char.ofNat 125 then some (.objV [], rest2)
          else
            match parseJsonFields fuel (c2 :: rest2) with
            | some (fs, r) => some (.objV fs, r)
            | none => none
        | [] => none
      else
        match parseNumberLex (c :: rest) with
        | some (lexeme, r) => some (.numV ⟨lexeme⟩, r)
        | none => none
    | [] => none

/-- Parse the non-empty comma-separated element list of a JSON array,
including the closing bracket. -/
def parseJsonElems : Nat → List Char → Option (List JsValue × List Char)
  | 0, _ => none
  | fuel + 1, cs =>
    match parseJsonValue fuel cs with
    | some (v, rest) =>
      match skipWs rest with
      | c :: rest2 =>
        if c = ',' then
          match parseJsonElems fuel rest2 with
          | some (vs, r) => some (v :: vs, r)
          | none => none
        else if c = ']' then some ([v], rest2)
        else none
      | [] => none
    | none => none

/-- Parse the non-empty comma-separated member list of a JSON object,
including the closing brace. -/
def parseJsonFields : Nat → List Char → Option (List (String × JsValue) × List Char)
  | 0, _ => none
  | fuel + 1, cs =>
    match skipWs cs with
    | c :: rest =>
      if c = quoteChar then
        match parseStringBody rest with
        | some (key, rest1) =>
          match skipWs rest1 with
          | c2 :: rest2 =>
            if c2 = ':' then
              match parseJsonValue fuel rest2 with
              | some (v, rest3) =>
                match skipWs rest3 with
                | c3 :: rest4 =>
                  if c3 = ',' then
                    match parseJsonFields fuel rest4 with
                    | some (fs, r) => some ((⟨key⟩, v) :: fs, r)
                    | none => none
                  else if c3 = Char.ofNat 125 then some ([(⟨key⟩, v)], rest4)
                  else none
                | [] => none
              | none => none
            else none
          | [] => none
        | none => none
      else none
    | [] => none

end

/-- Model of `JSON.parse(s)`: parse one value, allow trailing whitespace, reject
trailing garbage.  The fuel bound `2 * length + 8` cannot be exhausted:
every recursive descent first consumes at least one input character. -/
def jsonParse (s : String) : Option JsValue :=
  match parseJsonValue (2 * s.length + 8) s.data with
  | some (v, rest) => if skipWs rest = [] then some v else none
  | none => none

mutual

/-- JS string conversion `String(v)` of a parsed JSON value, as template
interpolation performs it.  Number lexemes are kept verbatim (the exact
double re-formatting is not modelled; no claim consumes a numeric value). -/
def jsValueToString : JsValue → String
  | .nullV => "null"
  | .boolV b => if b then "true" else "false"
  | .numV raw => raw
  | .strV s => s
  | .arrV l => jsArrayJoin l
  | .objV _ => "[object Object]"

/-- JS `Array.prototype.join(',')` as used by array-to-string conversion:
null elements become empty, the rest convert recursively. -/
def jsArrayJoin : List JsValue → String
  | [] => ""
  | [.nullV] => ""
  | [v] => jsValueToString v
  | .nullV :: vs => "," ++ jsArrayJoin vs
  | v :: vs => jsValueToString v ++ "," ++ jsArrayJoin vs

end

/-- The `sources` field of a recommendation as `createCourseCard` receives
it: absent, an array of URL strings, or a single string. -/
inductive SourcesField where
  | absent
  | arr (urls : List String)
  | str (s : String)

/-- The href of the `View Course` link that `createCourseCard` renders
(main.js lines 188-202), or `none` when no link is rendered:
`if (course.sources)` skips absent fields and the (falsy) empty string; a
string is normalized by replacing every apostrophe with a double quote and
passing it to `JSON.parse`, falling back to the one-element array
`[sources]` when the parse throws; a link is rendered exactly when the
final value is an array with at least one element, and it targets the
string conversion of that first element. -/
def sourceLinkTarget (sources : SourcesField) : Option String :=
  match sources with
  | .absent => none
  | .arr urls =>
    match urls with
    | [] => none
    | u :: _ => some u
  | .str s =>
    if s = "" then none
    else
      match jsonParse (replaceApostrophes s) with
      | some (.arrV (v :: _)) => some (jsValueToString v)
      | some _ => none
      | none => some s

/-- Spec-side description of a domain tag after the correction forced by
the counterexample below: the part before the FIRST underscore, a space,
and everything after that underscore (other underscores untouched), all
uppercased; a domain with no underscore is just uppercased. -/
def domainTagSpec (d : String) : String :=
  match d.data.dropWhile (fun c => ¬ c = '_') with
  | [] => ⟨d.data.map Char.toUpper⟩
  | _ :: post =>
    ⟨(d.data.takeWhile (fun c => ¬ c = '_') ++ ' ' :: post).map Char.toUpper⟩

/-- C1: the validator applies its rules in order with the first failure
winning — no file selected rejects with the selection message; otherwise
size over 16,777,216 bytes rejects with the size message; otherwise a
media type outside the three allowed ones rejects with the type message;
and every file of allowed size and allowed media type is accepted. -/
theorem validateFile_applies_rules_in_order :
    validateFile none = some "Please select a file to upload" ∧
    (∀ f : FileInfo, f.size > 16777216 →
      validateFile (some f) = some "File size exceeds 16MB limit") ∧
    (∀ f : FileInfo, f.size ≤ 16777216 → f.type ∉ allowedTypes →
      validateFile (some f) = some "Invalid file type. Please upload a PDF or DOCX file") ∧
    (∀ f : FileInfo, f.size ≤ 16777216 → f.type ∈ allowedTypes →
      validateFile (some f) = none) := by
  refine ⟨rfl, ?_, ?_, ?_⟩
  · intro f h
    simp only [validateFile]
    rw [if_pos (by omega)]
  · intro f hs ht
    simp only [validateFile]
    rw [if_neg (by omega), if_pos]
    simpa using ht
  · intro f hs ht
    simp only [validateFile]
    rw [if_neg (by omega), if_neg]
    simpa using ht

/-- C1 witness: a 20,000,000-byte PDF is rejected with the size message. -/
theorem validateFile_applies_rules_in_order_witness :
    validateFile (some ⟨20000000, "application/pdf"⟩) =
      some "File size exceeds 16MB limit" :=
  validateFile_applies_rules_in_order.2.1 ⟨20000000, "application/pdf"⟩ (by decide)

/-- C2 counterexample: a file whose media type is outside the allowed list
is NOT always rejected with the type message — when it is also oversized,
the size check runs first and wins. -/
theorem validateFile_size_beats_type_counterexample :
    "text/plain" ∉ allowedTypes ∧
    validateFile (some ⟨16777217, "text/plain"⟩) =
      some "File size exceeds 16MB limit" ∧
    validateFile (some ⟨16777217, "text/plain"⟩) ≠
      some "Invalid file type. Please upload a PDF or DOCX file" := by
  refine ⟨by decide, rfl, by decide⟩

/-- C2 amended: for every selected file of size at most 16,777,216 bytes
whose media type is outside the three allowed types, validation rejects
with exactly the type message (when the file is also oversized, the size
message wins instead). -/
theorem validateFile_type_message_when_size_allowed (f : FileInfo)
    (hs : f.size ≤ 16777216) (ht : f.type ∉ allowedTypes) :
    validateFile (some f) = some "Invalid file type. Please upload a PDF or DOCX file" := by
  simp only [validateFile]
  rw [if_neg (by omega), if_pos]
  simpa using ht

/-- C2 amended witness: a small plain-text file is rejected with the type
message. -/
theorem validateFile_type_message_when_size_allowed_witness :
    validateFile (some ⟨1000, "text/plain"⟩) =
      some "Invalid file type. Please upload a PDF or DOCX file" :=
  validateFile_type_message_when_size_allowed ⟨1000, "text/plain"⟩
    (by decide) (by decide)

/-- C4: any throw inside the try block (fetch failure or JSON-parse
failure) shows exactly the fixed transport message; a parsed response
renders results exactly when the HTTP status is ok AND the payload's
success flag is true; on any other parsed response the payload's non-empty
error string is shown, with the generic message when the field is absent. -/
theorem submitOutcome_routes_by_status_and_flag :
    submitOutcome .fetchThrew =
      .errorShown "Failed to connect to server. Please try again." ∧
    (∀ ok : Bool, submitOutcome (.jsonParseThrew ok) =
      .errorShown "Failed to connect to server. Please try again.") ∧
    (∀ (ok : Bool) (data : UploadPayload),
      submitOutcome (.parsed ok data) = .renderResults ↔
        ok = true ∧ data.success = true) ∧
    (∀ (ok : Bool) (data : UploadPayload) (s : String),
      ¬ (ok = true ∧ data.success = true) → data.error = some s → s ≠ "" →
      submitOutcome (.parsed ok data) = .errorShown s) ∧
    (∀ (ok : Bool) (data : UploadPayload),
      ¬ (ok = true ∧ data.success = true) → data.error = none →
      submitOutcome (.parsed ok data) =
        .errorShown "An error occurred while processing your resume") := by
  refine ⟨rfl, fun _ => rfl, ?_, ?_, ?_⟩
  · intro ok data
    by_cases h : ok = true ∧ data.success = true
    · simp [submitOutcome, h]
    · simp [submitOutcome, h]
  · intro ok data s h hsome hne
    simp [submitOutcome, h, jsOrString, hsome, hne]
  · intro ok data h hnone
    simp [submitOutcome, h, jsOrString, hnone]

/-- C4 witness: a parsed 200 response whose success flag is false and whose
error field says `bad resume` shows exactly that string. -/
theorem submitOutcome_routes_by_status_and_flag_witness :
    submitOutcome (.parsed true ⟨false, some "bad resume"⟩) =
      .errorShown "bad resume" :=
  submitOutcome_routes_by_status_and_flag.2.2.2.1 true ⟨false, some "bad resume"⟩
    "bad resume" (by simp) rfl (by simp)

/-- C10: on a parsed response that does not indicate success, a
server-supplied error string that is present but EMPTY falls back to the
generic message, exactly as an absent one does. -/
theorem submitOutcome_empty_error_like_absent (ok success : Bool)
    (hfail : ¬ (ok = true ∧ success = true)) :
    submitOutcome (.parsed ok ⟨success, some ""⟩) =
      .errorShown "An error occurred while processing your resume" ∧
    submitOutcome (.parsed ok ⟨success, some ""⟩) =
      submitOutcome (.parsed ok ⟨success, none⟩) := by
  constructor
  · simp [submitOutcome, hfail, jsOrString]
  · simp [submitOutcome, hfail, jsOrString]

/-- C10 witness: a failed 200 response carrying `error: ""` shows the
generic message. -/
theorem submitOutcome_empty_error_like_absent_witness :
    submitOutcome (.parsed true ⟨false, some ""⟩) =
      .errorShown "An error occurred while processing your resume" :=
  (submitOutcome_empty_error_like_absent true false (by simp)).1

/-- C5: each of the four view-state operations leaves exactly one of the
four containers visible — its own target — whatever the prior state was;
`resetForm` ends in the Upload state with the file-name display reset to
the placeholder `Choose File`. -/
theorem view_state_ops_exclusive (s : UIState) (m : String) :
    visibleCount (showLoading s) = 1 ∧ (showLoading s).loadingVisible = true ∧
    visibleCount (showError m s) = 1 ∧ (showError m s).errorVisible = true ∧
    (showError m s).errorMessageText = m ∧
    visibleCount (displayResults s) = 1 ∧
    (displayResults s).resultsVisible = true ∧
    visibleCount (resetForm s) = 1 ∧ (resetForm s).uploadVisible = true ∧
    (resetForm s).fileNameText = "Choose File" :=
  ⟨rfl, rfl, rfl, rfl, rfl, rfl, rfl, rfl, rfl, rfl⟩

/-- A one-character-pattern `replace` rewrites only the FIRST occurrence:
the prefix before the first `pat` is kept, the first `pat` becomes `rep`,
everything after it — later `pat`s included — is untouched. -/
theorem jsReplaceFirstChar_span (pat rep : Char) (cs : List Char) :
    jsReplaceFirstChar pat rep cs =
      cs.takeWhile (fun c => ¬ c = pat) ++
        (match cs.dropWhile (fun c => ¬ c = pat) with
         | [] => ([] : List Char)
         | _ :: post => rep :: post) := by
  induction cs with
  | nil => rfl
  | cons c cs ih =>
    by_cases h : c = pat
    · subst h
      simp [jsReplaceFirstChar, List.takeWhile_cons, List.dropWhile_cons]
    · simp only [jsReplaceFirstChar, if_neg h, List.takeWhile_cons,
        List.dropWhile_cons, decide_not, h, decide_False, Bool.not_false,
        if_true, ih]
      simp [h]

/-- C3 counterexample: a domain with two underscores renders with only the
first one replaced — `a_b_c` becomes `A B_C`, not `A B C`. -/
theorem renderDomains_second_underscore_kept :
    renderDomains (some ["a_b_c"]) = ["A B_C"] ∧
    renderDomains (some ["a_b_c"]) ≠ ["A B C"] := by
  exact ⟨by decide, by decide⟩

/-- C3 amended: each rendered domain tag is the domain with only its FIRST
underscore replaced by a space and the result uppercased (later
underscores are kept); a non-empty list maps tag-wise, and an empty or
absent list renders the single placeholder tag `General`. -/
theorem renderDomains_first_underscore_uppercased (l : List String) (hl : l ≠ []) :
    renderDomains (some l) = l.map domainTagText ∧
    (∀ d : String, domainTagText d = domainTagSpec d) ∧
    renderDomains (some []) = ["General"] ∧
    renderDomains none = ["General"] := by
  refine ⟨?_, ?_, rfl, rfl⟩
  · simp only [renderDomains]
    rw [if_pos (List.length_pos.mpr hl)]
  · intro d
    unfold domainTagText domainTagSpec jsToUpperCase
    rw [jsReplaceFirstChar_span]
    cases hd : d.data.dropWhile (fun c => ¬ c = '_') with
    | nil =>
      have htake : d.data.takeWhile (fun c => ¬ c = '_') = d.data := by
        have h2 := List.takeWhile_append_dropWhile
          (p := fun c => ¬ c = '_') (l := d.data)
        rw [hd] at h2
        simpa using h2
      simp only [decide_not] at htake
      simp [htake]
    | cons x post => simp

/-- C3 amended witness: `web_dev` renders as `WEB DEV`. -/
theorem renderDomains_first_underscore_uppercased_witness :
    renderDomains (some ["web_dev"]) = ["web_dev"].map domainTagText :=
  (renderDomains_first_underscore_uppercased ["web_dev"] (by decide)).1

/-- C8: a skill list of more than 10 entries renders its first 10 verbatim
followed by exactly one `+N more` tag with N the remaining count; a
non-empty list of at most 10 renders all entries verbatim and nothing
else (so exactly 10 gets no summary tag); an empty or absent list renders
the single placeholder tag. -/
theorem renderSkillTags_first_ten_and_summary :
    (∀ l : List String, l.length > 10 →
      renderSkillTags (some l) =
        l.take 10 ++ ["+" ++ toString (l.length - 10) ++ " more"]) ∧
    (∀ l : List String, 0 < l.length → l.length ≤ 10 →
      renderSkillTags (some l) = l) ∧
    renderSkillTags (some []) = ["No specific skills identified"] ∧
    renderSkillTags none = ["No specific skills identified"] := by
  refine ⟨?_, ?_, rfl, rfl⟩
  · intro l h
    simp only [renderSkillTags]
    rw [if_pos (by omega), if_pos h]
  · intro l h1 h2
    simp only [renderSkillTags]
    rw [if_pos h1, if_neg (by omega)]
    simp [List.take_of_length_le h2]

/-- C8 witness: an 11-skill list gets its first 10 plus a `+1 more` tag. -/
theorem renderSkillTags_first_ten_and_summary_witness :
    renderSkillTags (some ["a","b","c","d","e","f","g","h","i","j","k"]) =
      ["a","b","c","d","e","f","g","h","i","j","k"].take 10 ++
        ["+" ++ toString
          ((["a","b","c","d","e","f","g","h","i","j","k"] : List String).length - 10)
          ++ " more"] :=
  renderSkillTags_first_ten_and_summary.1 _ (by decide)

/-- C6: for every rating between 0 and 5, the number of star symbols in
the rendered star string is the floor of the rating plus one more exactly
when its fractional part is at least one half; in particular 3.4 gives 3
stars, 3.5 gives 4, 4.3 gives 4, 4.7 gives 5 and 5.0 gives 5. -/
theorem starsString_floor_plus_half_more :
    (∀ r : ℚ, 0 ≤ r → r ≤ 5 →
      (starsString r).length =
        ⌊r⌋.toNat + (if (1:ℚ)/2 ≤ Int.fract r then 1 else 0)) ∧
    (starsString (17/5)).length = 3 ∧
    (starsString (7/2)).length = 4 ∧
    (starsString (43/10)).length = 4 ∧
    (starsString (47/10)).length = 5 ∧
    (starsString (5:ℚ)).length = 5 := by
  have main : ∀ r : ℚ, 0 ≤ r →
      (starsString r).length =
        ⌊r⌋.toNat + (if (1:ℚ)/2 ≤ Int.fract r then 1 else 0) := by
    intro r h0
    show (List.replicate (jsMathFloor r).toNat starChar ++
      (if jsModOne r ≥ 1/2 then [starChar] else [])).length = _
    rw [List.length_append, List.length_replicate]
    simp only [jsMathFloor, jsModOne, if_pos h0, Int.fract, ge_iff_le]
    congr 1
    split <;> simp
  refine ⟨fun r h0 _ => main r h0, ?_, ?_, ?_, ?_, ?_⟩
  · rw [main (17/5) (by norm_num)]
    norm_num [Int.fract, Int.floor_eq_iff]
    omega
  · rw [main (7/2) (by norm_num)]
    norm_num [Int.fract, Int.floor_eq_iff]
    omega
  · rw [main (43/10) (by norm_num)]
    norm_num [Int.fract, Int.floor_eq_iff]
    omega
  · rw [main (47/10) (by norm_num)]
    norm_num [Int.fract, Int.floor_eq_iff]
    omega
  · rw [main 5 (by norm_num)]
    norm_num [Int.fract]
    omega

/-- C6 witness: the general count formula applied at rating 3.4. -/
theorem starsString_floor_plus_half_more_witness :
    (starsString (17/5)).length =
      ⌊(17/5 : ℚ)⌋.toNat + (if (1:ℚ)/2 ≤ Int.fract (17/5 : ℚ) then 1 else 0) :=
  starsString_floor_plus_half_more.1 (17/5) (by norm_num) (by norm_num)

/-- Appending a 3-character group to a digit string shifts every earlier
position by 3, so the comma positions of the prefix are unchanged and one
new comma appears right before the appended group. -/
theorem insertCommasTail_append_three (a b : List Char) (hb : b.length = 3) :
    insertCommasTail (a ++ b) = insertCommasTail a ++ ',' :: b := by
  induction a with
  | nil =>
    obtain ⟨x, y, z, rfl⟩ := List.length_eq_three.mp hb
    simp [insertCommasTail]
  | cons c a ih =>
    have hc : ((a ++ b).length + 1) % 3 = (a.length + 1) % 3 := by
      simp [List.length_append, hb]
      omega
    simp only [List.cons_append, insertCommasTail, List.append_eq, hc, ih,
      List.append_assoc]

/-- The `insertCommas` version of `insertCommasTail_append_three` (the first
character of a non-empty prefix stays comma-free). -/
theorem insertCommas_append_three (a b : List Char) (ha : a ≠ [])
    (hb : b.length = 3) :
    insertCommas (a ++ b) = insertCommas a ++ ',' :: b := by
  match a, ha with
  | c :: a, _ =>
    simp only [List.cons_append, insertCommas, insertCommasTail_append_three a b hb]

/-- No comma is ever inserted among the last two characters. -/
theorem insertCommasTail_short (cs : List Char) (h : cs.length ≤ 2) :
    insertCommasTail cs = cs := by
  match cs, h with
  | [], _ => rfl
  | [x], _ => simp [insertCommasTail]
  | [x, y], _ => simp [insertCommasTail]

/-- A digit string of at most 3 characters gets no separator at all. -/
theorem insertCommas_short (cs : List Char) (h : cs.length ≤ 3) :
    insertCommas cs = cs := by
  match cs with
  | [] => rfl
  | c :: cs' =>
    have : cs'.length ≤ 2 := by
      simp at h
      omega
    simp [insertCommas, insertCommasTail_short cs' this]

/-- Joining after appending one more group appends one comma and the
group. -/
theorem joinWithComma_concat (xs : List (List Char)) (y : List Char)
    (h : xs ≠ []) :
    joinWithComma (xs ++ [y]) = joinWithComma xs ++ ',' :: y := by
  induction xs with
  | nil => cases h rfl
  | cons x xs ih =>
    cases xs with
    | nil => simp [joinWithComma]
    | cons x2 xs2 =>
      have h2 := ih (by simp)
      simp only [List.cons_append, List.append_eq, joinWithComma] at h2 ⊢
      rw [h2]
      simp [List.append_assoc]

/-- The regex comma insertion coincides with grouping the digits by 3 from
the right and joining the groups with commas (strong induction on the
length, peeling 3 digits off the right). -/
theorem insertCommas_eq_grouped (n : Nat) (l : List Char) (hl : l.length ≤ n) :
    insertCommas l = joinWithComma (chunksFromRight l) := by
  induction n generalizing l with
  | zero =>
    have : l = [] := List.length_eq_zero.mp (by omega)
    subst this
    rw [chunksFromRight]
    rfl
  | succ n ih =>
    by_cases h3 : l.length ≤ 3
    · rw [insertCommas_short l h3, chunksFromRight, dif_pos h3]
      rfl
    · have htake : (l.take (l.length - 3)).length = l.length - 3 := by
        simp
      have hdrop : (l.drop (l.length - 3)).length = 3 := by
        simp
        omega
      have hne : l.take (l.length - 3) ≠ [] := by
        intro hnil
        rw [hnil] at htake
        simp at htake
        omega
      have hchunksne : chunksFromRight (l.take (l.length - 3)) ≠ [] := by
        rw [chunksFromRight]
        split <;> simp
      conv_lhs => rw [(List.take_append_drop (l.length - 3) l).symm]
      rw [insertCommas_append_three _ _ hne hdrop]
      rw [chunksFromRight, dif_neg h3]
      rw [joinWithComma_concat _ _ hchunksne]
      rw [ih _ (by omega)]

/-- C9: `formatNumber` on a non-negative integer is its decimal
representation with a comma between every pair of adjacent 3-digit groups
counted from the right, hence no separator for fewer than 4 digits; in
particular 1234567 formats as `1,234,567` and 999 as `999`. -/
theorem formatNumber_thousands_grouping :
    (∀ n : Nat, formatNumber n = formatNumberSpec n) ∧
    (∀ n : Nat, (Nat.repr n).length ≤ 3 → formatNumber n = Nat.repr n) ∧
    formatNumber 1234567 = "1,234,567" ∧
    formatNumber 999 = "999" := by
  refine ⟨?_, ?_, by decide, by decide⟩
  · intro n
    show (⟨insertCommas (Nat.repr n).data⟩ : String) =
      ⟨joinWithComma (chunksFromRight (Nat.repr n).data)⟩
    rw [insertCommas_eq_grouped (Nat.repr n).data.length _ le_rfl]
  · intro n h
    show (⟨insertCommas (Nat.repr n).data⟩ : String) = Nat.repr n
    have h2 : (Nat.repr n).data.length ≤ 3 := h
    rw [insertCommas_short _ h2]

/-- C9 witness: the short-number clause applied at 999. -/
theorem formatNumber_thousands_grouping_witness :
    formatNumber 999 = Nat.repr 999 :=
  formatNumber_thousands_grouping.2.1 999 (by decide)

/-- C7: the link target of a course card — a non-empty sources array links
its first entry; a (truthy) string whose apostrophe-normalized form
`JSON.parse`s to a non-empty array links the decoded first entry, the
single-quoted example decoding to `http://a`; a string the parse rejects
is linked whole, as a one-element array; and an absent sources field (the
falsy empty string included) renders no link. -/
theorem sourceLinkTarget_selection :
    sourceLinkTarget .absent = none ∧
    sourceLinkTarget (.str "") = none ∧
    (∀ (u : String) (us : List String), sourceLinkTarget (.arr (u :: us)) = some u) ∧
    (∀ (s : String) (v : JsValue) (vs : List JsValue), s ≠ "" →
      jsonParse (replaceApostrophes s) = some (.arrV (v :: vs)) →
      sourceLinkTarget (.str s) = some (jsValueToString v)) ∧
    (∀ s : String, s ≠ "" → jsonParse (replaceApostrophes s) = none →
      sourceLinkTarget (.str s) = some s) ∧
    sourceLinkTarget (.str "['http://a','http://b']") = some "http://a" := by
  refine ⟨rfl, rfl, fun u us => rfl, ?_, ?_, by decide⟩
  · intro s v vs hne hparse
    simp [sourceLinkTarget, hne, hparse]
  · intro s hne hparse
    simp [sourceLinkTarget, hne, hparse]

/-- C7 witness: the string `not json` fails to decode and is linked
whole. -/
theorem sourceLinkTarget_selection_witness :
    sourceLinkTarget (.str "not json") = some "not json" :=
  sourceLinkTarget_selection.2.2.2.2.1 "not json" (by decide) rfl
